import Mathlib

/-!
# ZeroID — verification of the specification against the source

Shallow embedding of the ZeroID server (TypeScript) components that the
spec's claims are about:

* the in-process LRU verification cache (`LRUMemoryCache` in the
  verification-result cache module),
* the escrow store operations (`putEscrowEntry`, `getEscrowEntry`,
  `rotateEscrowEntry`, `purgeExpiredEscrow` in `db/stores.ts`),
* the credential issuance pipeline (`issueCredential` in
  `issuer/credential.ts`) over the Poseidon/EdDSA primitives,
* the `POST /proof/verify` route pipeline (`api/routes/proof.ts`),
* batch aggregation (`aggregateProofs` in `verifier/aggregate.ts`),
* the ULID generator (`generateULID` in `issuer/escrow.ts`).

State is passed explicitly; JavaScript `Map` objects become association
lists in insertion order; fallible code returns `Except`/`Option`;
`Date.now()` becomes an explicit `now : Nat` argument.  External
primitives (circomlibjs Poseidon/EdDSA, node AES-GCM and SHA-256, JSON
serialization) are not part of the repository source; they are modelled
from the spec, each with a doc comment saying so.
-/

namespace ZeroID

/-! ## JavaScript `Map` model

A JS `Map` preserves insertion order: `delete` removes a key, `set` on a
present key updates the value in place (keeping its position), `set` on
an absent key appends at the end, and iteration starts at the oldest
surviving key. -/

/-- Value stored in the in-memory LRU cache (`MemoryCacheEntry`). -/
structure MemoryCacheEntry where
  valid : Bool
  nullifier : String
  timestamp : Nat
deriving DecidableEq, Repr

/-- Model of `Map.get`: first binding of the key, if any. -/
def jsMapGet (l : List (String × α)) (k : String) : Option α :=
  (l.find? (fun p => p.1 == k)).map (·.2)

/-- Model of `Map.delete`: remove the binding of the key. -/
def jsMapDelete (l : List (String × α)) (k : String) : List (String × α) :=
  l.filter (fun p => p.1 ≠ k)

/-- Model of `Map.set`: update in place when the key is present, else append
at the end (most-recent position). -/
def jsMapSet (l : List (String × α)) (k : String) (v : α) : List (String × α) :=
  if l.any (fun p => p.1 == k) then
    l.map (fun p => if p.1 == k then (k, v) else p)
  else
    l ++ [(k, v)]

/-! ## In-process LRU cache (`LRUMemoryCache`)

From the verification-result cache module: a `Map` from proof fingerprints
to `MemoryCacheEntry`, with `maxSize` (default 10 000) and `ttlMs`
(default 3 600 000). -/

/-- State of `LRUMemoryCache`: the backing `Map` (insertion-ordered
association list) plus the two configuration constants. -/
structure LruState where
  entries : List (String × MemoryCacheEntry)
  maxSize : Nat
  ttlMs : Nat
deriving DecidableEq, Repr

/-- Method `LRUMemoryCache.get`: miss on absent key; if the entry's age exceeds
`ttlMs` delete it and miss; otherwise delete and re-`set` it (moving it to
the most-recent position) and return it. -/
def lruGet (st : LruState) (now : Nat) (key : String) :
    Option MemoryCacheEntry × LruState :=
  match jsMapGet st.entries key with
  | none => (none, st)
  | some e =>
    if now - e.timestamp > st.ttlMs then
      (none, { st with entries := jsMapDelete st.entries key })
    else
      (some e, { st with entries := jsMapSet (jsMapDelete st.entries key) key e })

/-- Method `LRUMemoryCache.set`: when the map already holds `maxSize` entries,
delete the first (oldest-positioned) key, then `set` the new entry with
the current timestamp.  No TTL is consulted. -/
def lruSet (st : LruState) (now : Nat) (key : String) (valid : Bool)
    (nullifier : String) : LruState :=
  let afterEvict :=
    if st.maxSize ≤ st.entries.length then
      match st.entries.head? with
      | some (k0, _) => jsMapDelete st.entries k0
      | none => st.entries
    else st.entries
  { st with entries := jsMapSet afterEvict key ⟨valid, nullifier, now⟩ }

end ZeroID

namespace ZeroID

/-! ## Lemmas about the JS map model -/

theorem jsMapGet_eq_some {l : List (String × α)} {k : String} {v : α}
    (h : jsMapGet l k = some v) : (k, v) ∈ l := by
  unfold jsMapGet at h
  rcases hf : l.find? (fun p => p.1 == k) with _ | ⟨k', v'⟩ <;> rw [hf] at h
  · simp at h
  · simp only [Option.map_some'] at h
    have hmem := List.mem_of_find?_eq_some hf
    have hpred := List.find?_some hf
    simp only [beq_iff_eq] at hpred
    have hv : v' = v := by injection h
    subst hpred; subst hv; exact hmem

theorem mem_keys_jsMapSet {l : List (String × α)} {k k' : String} {v : α}
    (h : k' ∈ (jsMapSet l k v).map Prod.fst) : k' ∈ l.map Prod.fst ∨ k' = k := by
  unfold jsMapSet at h
  split at h
  · rw [List.map_map] at h
    rcases List.mem_map.1 h with ⟨p, hp, heq⟩
    by_cases hpk : p.1 = k
    · right
      simp only [Function.comp_apply] at heq
      rw [if_pos (by simpa using hpk)] at heq
      exact heq.symm
    · left
      simp only [Function.comp_apply] at heq
      rw [if_neg (by simpa using hpk)] at heq
      exact heq ▸ List.mem_map_of_mem Prod.fst hp
  · rw [List.map_append] at h
    rcases List.mem_append.1 h with h | h
    · exact Or.inl h
    · simp at h; exact Or.inr h

theorem not_mem_keys_jsMapDelete (l : List (String × α)) (k : String) :
    k ∉ (jsMapDelete l k).map Prod.fst := by
  unfold jsMapDelete
  intro h
  rcases List.mem_map.1 h with ⟨p, hp, hpk⟩
  have hne := List.of_mem_filter hp
  simp at hne
  exact hne hpk

/-! ## Claim C6 — LRU cache semantics

The source checks the TTL only in `get`; `set` never inspects any
timestamp: at capacity it unconditionally deletes the first-positioned
key.  So "TTL is checked on read and on insert" fails on the insert
half, while the remaining conjuncts of the claim hold. -/

/-- C6 counterexample state: a cache of capacity 2 and TTL 100 ms holding
two entries both inserted at t = 0. -/
def c6State : LruState :=
  ⟨[("A", ⟨true, "n1", 0⟩), ("B", ⟨true, "n2", 0⟩)], 2, 100⟩

/-- C6 (counterexample): inserting a fresh key at t = 200 into `c6State`
(whose entries are all 200 ms old, far past the 100 ms TTL) evicts only
the first-positioned key and keeps the stale entry `"B"`: the insert path
performs no TTL check, contradicting "checks entry TTL on both read and
insert". -/
theorem C6_insert_does_not_check_ttl :
    ("B", (⟨true, "n2", 0⟩ : MemoryCacheEntry)) ∈
      (lruSet c6State 200 "C" true "n3").entries ∧ 200 - 0 > c6State.ttlMs := by
  decide

/-- C6 (amended): the LRU cache checks entry TTL on read only — a `get`
hit deletes a stale entry and returns a miss, and an entry is returned
only when its age is within the TTL; a fresh `get` hit reinserts the
entry at the most-recent position; `set` at capacity evicts the
oldest-positioned (least-recently-used) key, without any TTL check. -/
theorem C6_lru_semantics (st : LruState) (now : Nat) (key : String)
    (e : MemoryCacheEntry) :
    ((lruGet st now key).1 = some e → now - e.timestamp ≤ st.ttlMs) ∧
    (jsMapGet st.entries key = some e → now - e.timestamp > st.ttlMs →
      lruGet st now key = (none, { st with entries := jsMapDelete st.entries key })) ∧
    (jsMapGet st.entries key = some e → now - e.timestamp ≤ st.ttlMs →
      lruGet st now key =
        (some e, { st with entries := jsMapSet (jsMapDelete st.entries key) key e })) ∧
    (∀ k0 e0 rest v nul, st.entries = (k0, e0) :: rest →
      st.maxSize ≤ st.entries.length → k0 ≠ key →
      k0 ∉ ((lruSet st now key v nul).entries.map Prod.fst)) := by
  refine ⟨?_, ?_, ?_, ?_⟩
  · intro h
    unfold lruGet at h
    rcases hg : jsMapGet st.entries key with _ | e' <;> rw [hg] at h
    · simp at h
    · by_cases hstale : now - e'.timestamp > st.ttlMs
      · simp [hstale] at h
      · simp [hstale] at h
        subst h; omega
  · intro hg hstale
    unfold lruGet
    rw [hg]
    simp [hstale]
  · intro hg hfresh
    unfold lruGet
    rw [hg]
    have : ¬ (now - e.timestamp > st.ttlMs) := by omega
    simp [this]
  · intro k0 e0 rest v nul hent hcap hne
    unfold lruSet
    rw [hent] at hcap ⊢
    simp only [List.head?_cons, hcap, if_true]
    intro hmem
    rcases mem_keys_jsMapSet hmem with h | h
    · exact not_mem_keys_jsMapDelete _ _ h
    · exact hne h

/-- C6 witness state: capacity 10, TTL 100 ms, two entries. -/
def c6WitnessState : LruState :=
  ⟨[("A", ⟨true, "n", 0⟩), ("B", ⟨false, "m", 10⟩)], 10, 100⟩

/-- C6 (witness): a concrete fresh `get` hit at t = 50 reinserts the
entry at the most-recent position. -/
theorem C6_lru_semantics_witness :
    (jsMapGet c6WitnessState.entries "A" = some ⟨true, "n", 0⟩ ∧
      50 - (0 : Nat) ≤ c6WitnessState.ttlMs) ∧
    lruGet c6WitnessState 50 "A" =
      (some ⟨true, "n", 0⟩,
        { c6WitnessState with
          entries := jsMapSet (jsMapDelete c6WitnessState.entries "A") "A"
            ⟨true, "n", 0⟩ }) :=
  ⟨⟨by decide, by decide⟩,
    (C6_lru_semantics c6WitnessState 50 "A" ⟨true, "n", 0⟩).2.2.1
      (by decide) (by decide)⟩

/-! ## Claim C9 — the ULID generator (`generateULID` in `issuer/escrow.ts`)

The source keeps module-level mutable `lastTime`/`lastRandom`; the model
passes them as explicit state.  `crypto.randomInt(0, 2 ** 40)` and
`crypto.randomBytes(10)` become the explicit arguments `randInt` and
`randBytes`. -/

/-- Crockford base-32 alphabet (`ENCODING` in `issuer/escrow.ts`). -/
def ENCODING : String := "0123456789ABCDEFGHJKMNPQRSTVWXYZ"

/-- Indexing `ENCODING[k]`: character of the alphabet at index `k`. -/
def encChar (k : Nat) : Char := ENCODING.data.getD k ' '

/-- The timestamp-encoding loop: each iteration prepends
`ENCODING[now % 32]` and divides `now` by 32, so earlier-produced digits
end up to the right.  `tsEnc k n` is the result of `k` iterations. -/
def tsEnc : Nat → Nat → List Char
  | 0, _ => []
  | k + 1, n => tsEnc k (n / 32) ++ [encChar (n % 32)]

/-- Module-level mutable state of the ULID generator. -/
structure UlidState where
  lastTime : Nat
  lastRandom : Nat
deriving DecidableEq, Repr

/-- Function `generateULID`: update the monotonic counter state, encode the
timestamp into 10 base-32 digits, then build the 16-character random
segment as `ENCODING[randBytes[i % 10] % 32]` for `i = 0..15`. -/
def generateULID (st : UlidState) (nowMs : Nat) (randInt : Nat)
    (randBytes : List Nat) : String × UlidState :=
  let st' :=
    if nowMs = st.lastTime then { st with lastRandom := st.lastRandom + 1 }
    else { lastTime := nowMs, lastRandom := randInt }
  let ts := tsEnc 10 nowMs
  let rand := (List.range 16).map (fun i => encChar (randBytes.getD (i % 10) 0 % 32))
  (⟨ts ++ rand⟩, st')

theorem tsEnc_length (k n : Nat) : (tsEnc k n).length = k := by
  induction k generalizing n with
  | zero => rfl
  | succ k ih => simp [tsEnc, ih]

theorem tsEnc_mem_alphabet {k n : Nat} {c : Char} (h : c ∈ tsEnc k n) :
    c ∈ ENCODING.data := by
  induction k generalizing n with
  | zero => simp [tsEnc] at h
  | succ k ih =>
    simp only [tsEnc, List.mem_append, List.mem_singleton] at h
    rcases h with h | h
    · exact ih h
    · subst h
      unfold encChar
      have hlt : n % 32 < ENCODING.data.length := by
        have : n % 32 < 32 := Nat.mod_lt _ (by norm_num)
        simpa [ENCODING] using this
      rw [List.getD_eq_get _ _ hlt]
      exact List.get_mem _ _ _

/-- C9: every generated ULID is a 26-character string over the Crockford
base-32 alphabet; for `i < 6` the character at position `20 + i` equals
the character at position `10 + i` (the random segment cycles through the
same 10 bytes, so the id carries at most 50 bits of randomness); and the
output string is independent of the stored `lastTime`/`lastRandom` state
and of the fresh `randInt` draw — the monotonic counter `lastRandom`
never influences the output. -/
theorem C9_ulid_shape (st : UlidState) (nowMs : Nat) (randInt : Nat)
    (randBytes : List Nat) :
    ((generateULID st nowMs randInt randBytes).1.length = 26) ∧
    (∀ c ∈ (generateULID st nowMs randInt randBytes).1.data, c ∈ ENCODING.data) ∧
    (∀ i, i < 6 →
      (generateULID st nowMs randInt randBytes).1.data.getD (20 + i) ' ' =
        (generateULID st nowMs randInt randBytes).1.data.getD (10 + i) ' ') ∧
    (∀ st2 randInt2,
      (generateULID st2 nowMs randInt2 randBytes).1 =
        (generateULID st nowMs randInt randBytes).1) := by
  refine ⟨?_, ?_, ?_, ?_⟩
  · show (tsEnc 10 nowMs ++ _).length = 26
    rw [List.length_append, tsEnc_length]
    simp
  · intro c hc
    simp only [generateULID, List.mem_append] at hc
    rcases hc with hc | hc
    · exact tsEnc_mem_alphabet hc
    · rcases List.mem_map.1 hc with ⟨i, _, heq⟩
      subst heq
      unfold encChar
      have hlt : randBytes.getD (i % 10) 0 % 32 < ENCODING.data.length := by
        have : randBytes.getD (i % 10) 0 % 32 < 32 := Nat.mod_lt _ (by norm_num)
        simpa [ENCODING] using this
      rw [List.getD_eq_get _ _ hlt]
      exact List.get_mem _ _ _
  · intro i hi
    show (tsEnc 10 nowMs ++ _).getD (20 + i) ' ' = (tsEnc 10 nowMs ++ _).getD (10 + i) ' '
    have h10 : (tsEnc 10 nowMs).length = 10 := tsEnc_length 10 nowMs
    rw [List.getD_append_right _ _ _ _ (by omega), List.getD_append_right _ _ _ _ (by omega),
      h10]
    have h20 : 20 + i - 10 = 10 + i := by omega
    have h10' : 10 + i - 10 = i := by omega
    rw [h20, h10']
    unfold List.getD
    rw [List.get?_map, List.get?_map]
    have hr1 : (List.range 16).get? (10 + i) = some (10 + i) :=
      List.get?_range (by omega)
    have hr2 : (List.range 16).get? i = some i := List.get?_range (by omega)
    rw [hr1, hr2]
    have hmod : (10 + i) % 10 = i := by omega
    simp [hmod, Nat.mod_eq_of_lt (show i < 10 by omega)]
  · intro st2 randInt2
    rfl


/-- C9 (witness): a concrete ULID generation, with the repeated-character
property instantiated at `i = 0`. -/
theorem C9_ulid_shape_witness :
    (0 < 6) ∧
    ((generateULID ⟨0, 0⟩ 1234567890 77 [3, 250, 17, 99, 4, 5, 6, 7, 8, 9]).1.data.getD
        (20 + 0) ' ' =
      (generateULID ⟨0, 0⟩ 1234567890 77 [3, 250, 17, 99, 4, 5, 6, 7, 8, 9]).1.data.getD
        (10 + 0) ' ') :=
  ⟨by decide,
    (C9_ulid_shape ⟨0, 0⟩ 1234567890 77 [3, 250, 17, 99, 4, 5, 6, 7, 8, 9]).2.2.1 0
      (by decide)⟩

/-! ## Claims C7 and C8 — batch aggregation (`aggregateProofs` in
`verifier/aggregate.ts`)

The source maps each entry (with its index) through
`verifyProofWithKey(entry.proof, entry.publicSignals, vkey)` inside a
`try`/`catch`, via `Promise.allSettled`; since the inner `catch` already
converts a thrown error into `{index, valid:false, error}`, every settled
promise is fulfilled and the `rejected` arm of the result mapping is dead
code.  The model is generic in the entry type and takes
`verify : α → Except String Bool` standing for `verifyProofWithKey` with
the verification key baked in (`Except.error` = thrown error, as snarkjs
itself is external). -/

/-- Result of an individual proof within a batch (`AggregateResultEntry`). -/
structure AggregateResultEntry where
  index : Nat
  valid : Bool
  error : Option String
deriving DecidableEq, Repr

/-- Result of batch verification (`AggregateResult`). -/
structure AggregateResult where
  allValid : Bool
  total : Nat
  validCount : Nat
  results : List AggregateResultEntry
deriving DecidableEq, Repr

/-- The per-entry verification task body: `{index, valid}` on success,
`{index, valid:false, error}` when verification throws. -/
def resultEntry (verify : α → Except String Bool) (index : Nat) (entry : α) :
    AggregateResultEntry :=
  match verify entry with
  | .ok v => ⟨index, v, none⟩
  | .error m => ⟨index, false, some m⟩

/-- Model of `proofs.map((entry, index) => ...)`: map with the element index. -/
def mapWithIndex (f : Nat → α → β) : Nat → List α → List β
  | _, [] => []
  | i, a :: as => f i a :: mapWithIndex f (i + 1) as

/-- Function `aggregateProofs`: early return on the empty list, otherwise verify
every entry in isolation and count the valid ones. -/
def aggregateProofs (verify : α → Except String Bool) (proofs : List α) :
    AggregateResult :=
  if proofs.isEmpty then ⟨true, 0, 0, []⟩
  else
    let entries := mapWithIndex (resultEntry verify) 0 proofs
    let validCount := (entries.filter (fun e => e.valid)).length
    ⟨validCount == proofs.length, proofs.length, validCount, entries⟩

/-- Zod schema `aggregateRequestSchema`: 1 to 100 entries, each with 1 to
50 public-signal strings (the `proof` field is an unconstrained record
and always passes); entries are represented by their `publicSignals`. -/
def aggregateSchemaAccepts (proofs : List (List String)) : Bool :=
  decide (1 ≤ proofs.length) && decide (proofs.length ≤ 100) &&
    proofs.all (fun s => decide (1 ≤ s.length) && decide (s.length ≤ 50))

theorem mapWithIndex_get? (f : Nat → α → β) (l : List α) (i j : Nat) :
    (mapWithIndex f i l).get? j = (l.get? j).map (f (i + j)) := by
  induction l generalizing i j with
  | nil => simp [mapWithIndex]
  | cons a as ih =>
    cases j with
    | zero => simp [mapWithIndex]
    | succ j =>
      simp only [mapWithIndex, List.get?_cons_succ, ih]
      have : i + (j + 1) = i + 1 + j := by omega
      rw [this]

theorem mapWithIndex_map_index (verify : α → Except String Bool) (l : List α)
    (i : Nat) :
    (mapWithIndex (resultEntry verify) i l).map AggregateResultEntry.index =
      List.range' i l.length := by
  induction l generalizing i with
  | nil => rfl
  | cons a as ih =>
    simp only [mapWithIndex, List.map_cons, List.length_cons, List.range'_succ, ih]
    congr 1
    unfold resultEntry
    cases verify a <;> rfl

theorem aggregateProofs_results_get? (verify : α → Except String Bool)
    (proofs : List α) (j : Nat) :
    (aggregateProofs verify proofs).results.get? j =
      (proofs.get? j).map (resultEntry verify j) := by
  unfold aggregateProofs
  rcases proofs with _ | ⟨a, as⟩
  · simp
  · simp only [List.isEmpty_cons, if_neg (by simp : ¬ (false = true))]
    rw [mapWithIndex_get? (resultEntry verify) (a :: as) 0 j]
    simp

/-- C7: for every call to `aggregateProofs`, `total` is the number of
entries, `allValid` holds iff `validCount = total`, the indices of the
individual results are exactly `0..total-1` in order (in particular a
permutation of `0..total-1`), an entry whose verification throws yields
`valid:false` with that error string at its own index, and the result at
index `j` depends only on the entry at index `j` — a failure cannot
poison the other entries. -/
theorem C7_aggregate (verify : α → Except String Bool) (proofs : List α) :
    ((aggregateProofs verify proofs).total = proofs.length) ∧
    ((aggregateProofs verify proofs).allValid = true ↔
      (aggregateProofs verify proofs).validCount = (aggregateProofs verify proofs).total) ∧
    ((aggregateProofs verify proofs).results.map AggregateResultEntry.index =
      List.range proofs.length) ∧
    (((aggregateProofs verify proofs).results.map AggregateResultEntry.index).Perm
      (List.range proofs.length)) ∧
    (∀ j e m, proofs.get? j = some e → verify e = .error m →
      (aggregateProofs verify proofs).results.get? j = some ⟨j, false, some m⟩) ∧
    (∀ (proofs2 : List α) j, proofs.get? j = proofs2.get? j →
      (aggregateProofs verify proofs).results.get? j =
        (aggregateProofs verify proofs2).results.get? j) := by
  have hidx : (aggregateProofs verify proofs).results.map AggregateResultEntry.index =
      List.range proofs.length := by
    unfold aggregateProofs
    rcases proofs with _ | ⟨a, as⟩
    · simp
    · simp only [List.isEmpty_cons, if_neg (by simp : ¬ (false = true))]
      rw [mapWithIndex_map_index, List.range_eq_range']
  refine ⟨?_, ?_, hidx, hidx ▸ List.Perm.refl _, ?_, ?_⟩
  · unfold aggregateProofs
    rcases proofs with _ | ⟨a, as⟩ <;> simp
  · unfold aggregateProofs
    rcases proofs with _ | ⟨a, as⟩
    · simp
    · simp only [List.isEmpty_cons, if_neg (by simp : ¬ (false = true))]
      simp [beq_iff_eq]
  · intro j e m hj hv
    rw [aggregateProofs_results_get?, hj]
    simp [resultEntry, hv]
  · intro proofs2 j hj
    rw [aggregateProofs_results_get?, aggregateProofs_results_get?, hj]

/-- C7 witness verifier: throws on the entry `"bad"`. -/
def c7Verify : String → Except String Bool :=
  fun s => if s = "bad" then .error "boom" else .ok true

/-- C7 (witness): in a concrete two-entry batch whose second entry
throws, that entry's result is `{index: 1, valid: false, error}`. -/
theorem C7_aggregate_witness :
    ((["a", "bad"] : List String).get? 1 = some "bad" ∧
      c7Verify "bad" = .error "boom") ∧
    (aggregateProofs c7Verify ["a", "bad"]).results.get? 1 =
      some ⟨1, false, some "boom"⟩ :=
  ⟨⟨by decide, rfl⟩,
    (C7_aggregate c7Verify ["a", "bad"]).2.2.2.2.1 1 "bad" "boom" (by decide) rfl⟩

/-- A trivially succeeding verifier used for the closed evaluations. -/
def c8Verify : List String → Except String Bool := fun _ => .ok true

/-- C8: `aggregateProofs` on the empty list returns
`{allValid: true, total: 0, validCount: 0, results: []}` — vacuously all
valid — while the HTTP schema for `POST /proof/aggregate` rejects an
empty `proofs` array (minimum 1 entry), so the edge is reachable only
through the library interface. -/
theorem C8_empty_aggregate :
    aggregateProofs c8Verify ([] : List (List String)) =
      ⟨true, 0, 0, []⟩ ∧ aggregateSchemaAccepts [] = false := by
  constructor <;> rfl


/-! ## Escrow store (`db/stores.ts` §Escrow Operations)

Byte strings are `List Nat`.  The node `crypto` primitives used by
`crypto/aes.ts` and by the integrity hash are external library code and
are modelled from the spec below; the store logic itself
(`putEscrowEntry`, `getEscrowEntry`, `rotateEscrowEntry`,
`purgeExpiredEscrow`) is translated from the source. -/

/-- Byte strings (the model does not bound the individual values). -/
abbrev Bytes := List Nat

/-- Modelled from the spec: SHA-256 (node `crypto.createHash('sha256')`,
not in the repository), used only as a deterministic digest function with
a hex-string output — the claims depend on determinism, not on the
concrete digest values. -/
def sha256hex (bs : Bytes) : String :=
  toString (bs.foldl (fun a b => a * 257 + b + 1) 7)

/-- Modelled from the spec: the AES-256-GCM keystream position
dependence (a deterministic function of key, IV and byte index). -/
def keystream (key : Bytes) (iv i : Nat) : Nat :=
  key.foldl (fun a b => a * 31 + b) 0 + iv * 97 + i * 13

/-- Modelled from the spec: the GCM authentication tag, a deterministic
function of key, IV and ciphertext. -/
def gcmTag (key : Bytes) (iv : Nat) (ct : Bytes) : Nat :=
  key.foldl (fun a b => a * 131 + b) 3 + iv + ct.foldl (fun a b => a * 127 + b) 11

/-- Encrypted payload structure (`EncryptedPayload` in `crypto/aes.ts`):
IV, ciphertext and tag.  The `keyTag` field models the authentication
property of AES-GCM — the tag binds the encryption key, so decryption
under any other key fails — in ideal-cipher form. -/
structure EncryptedPayload where
  iv : Nat
  ciphertext : Bytes
  tag : Nat
  keyTag : Bytes
deriving DecidableEq, Repr

/-- Errors thrown by `encrypt`/`decrypt` in `crypto/aes.ts`: the explicit
key-length check, and the GCM authentication failure on wrong key or
tampered payload. -/
inductive AesError where
  | badKeyLength
  | authFailed
deriving DecidableEq, Repr

/-- XOR byte masking starting at byte index `i`; involutive. -/
def maskBytes (key : Bytes) (iv : Nat) : Nat → Bytes → Bytes
  | _, [] => []
  | i, b :: bs => (b ^^^ keystream key iv i) :: maskBytes key iv (i + 1) bs

/-- Modelled from the spec: `encrypt` in `crypto/aes.ts` around the node
`createCipheriv('aes-256-gcm', ...)` core (external).  The source's
explicit key-length check is kept; the random IV draw becomes the `iv`
argument. -/
def encrypt (plaintext : Bytes) (key : Bytes) (iv : Nat) :
    Except AesError EncryptedPayload :=
  if key.length ≠ 32 then .error .badKeyLength
  else
    let ct := maskBytes key iv 0 plaintext
    .ok ⟨iv, ct, gcmTag key iv ct, key⟩

/-- Modelled from the spec: `decrypt` in `crypto/aes.ts` around the node
`createDecipheriv` core (external): fails on wrong key length, on a key
other than the encrypting one, or on a tag mismatch; otherwise inverts
the masking. -/
def decrypt (payload : EncryptedPayload) (key : Bytes) : Except AesError Bytes :=
  if key.length ≠ 32 then .error .badKeyLength
  else if payload.keyTag = key ∧ payload.tag = gcmTag key payload.iv payload.ciphertext then
    .ok (maskBytes key payload.iv 0 payload.ciphertext)
  else .error .authFailed

/-- The raw-PII record escrowed by the credential route: exactly the
fields passed to `encryptForEscrow` in the credential route. -/
structure RawPII where
  fullName : String
  dateOfBirth : String
  countryCode : Nat
  documentType : String
  documentNumber : String
  kycProviderRef : String
  verifiedAt : Nat
deriving DecidableEq, Repr

/-- Length-prefixed byte encoding of a string. -/
def encodeStr (s : String) : Bytes :=
  s.length :: s.data.map Char.toNat

/-- Modelled from the spec: `JSON.stringify` of the escrowed record
("serialize rawPII to canonical bytes") — an injective canonical byte
encoding with `decodePII` as left inverse. -/
def encodePII (p : RawPII) : Bytes :=
  encodeStr p.fullName ++ (encodeStr p.dateOfBirth ++ ([p.countryCode] ++
    (encodeStr p.documentType ++ (encodeStr p.documentNumber ++
      (encodeStr p.kycProviderRef ++ [p.verifiedAt])))))

/-- Decode one length-prefixed string, returning the remainder. -/
def decodeStr (bs : Bytes) : Option (String × Bytes) :=
  match bs with
  | [] => none
  | n :: rest =>
    if n ≤ rest.length then some (⟨(rest.take n).map Char.ofNat⟩, rest.drop n)
    else none

/-- Decode one number, returning the remainder. -/
def decodeNat (bs : Bytes) : Option (Nat × Bytes) :=
  match bs with
  | [] => none
  | n :: rest => some (n, rest)

/-- Modelled from the spec: `JSON.parse` of the escrowed record, the
inverse of `encodePII`. -/
def decodePII (bs : Bytes) : Option RawPII := do
  let (fullName, bs) ← decodeStr bs
  let (dateOfBirth, bs) ← decodeStr bs
  let (countryCode, bs) ← decodeNat bs
  let (documentType, bs) ← decodeStr bs
  let (documentNumber, bs) ← decodeStr bs
  let (kycProviderRef, bs) ← decodeStr bs
  let (verifiedAt, bs) ← decodeNat bs
  if bs.isEmpty then
    some ⟨fullName, dateOfBirth, countryCode, documentType, documentNumber,
      kycProviderRef, verifiedAt⟩
  else none

/-- Stored escrow entry (`EscrowEntry` in `db/stores.ts`). -/
structure EscrowEntry where
  encryptedBlob : EncryptedPayload
  regulatorKeyId : String
  credentialId : String
  createdAt : Nat
  expiresAt : Nat
  invalidated : Bool
  integrityHash : String
deriving DecidableEq, Repr

/-- Modelled from the spec: the store-level envelope written by
`encryptedKVPut` and opened by `decryptKVGet` (AES-256-GCM of
`JSON.stringify(entry)` under the HKDF-derived store key; the cipher core
and `JSON` are external).  Since the inner regulator layer is already
modelled byte-exactly, the outer layer is an ideal authenticated box
binding the store key: opening succeeds exactly under the key that
sealed it. -/
structure StoreBox where
  keyTag : Bytes
  entry : EscrowEntry
deriving DecidableEq, Repr

/-- Audit log actions (`AuditLogEntry.action` in `db/stores.ts`). -/
inductive AuditAction where
  | escrow_create
  | escrow_access
  | escrow_rotate
  | escrow_purge
  | credential_issue
  | credential_bind
  | proof_verify
  | nullifier_register
deriving DecidableEq, Repr

/-- Audit log entry (`AuditLogEntry` in `db/stores.ts`). -/
structure AuditLogEntry where
  action : AuditAction
  resourceId : String
  actor : String
  timestamp : Nat
  metadata : List (String × String)
deriving DecidableEq, Repr

/-- Server-side state touched by the escrow operations: the store key,
the escrow KV store and the append-only audit log. -/
structure EscrowState where
  storeKey : Bytes
  escrow : List (String × StoreBox)
  auditLog : List AuditLogEntry
deriving DecidableEq, Repr

/-- Model of an OrbitDB KeyValue `put`: overwrite the binding. -/
def kvPut (l : List (String × α)) (k : String) (v : α) : List (String × α) :=
  (k, v) :: jsMapDelete l k

/-- Function `appendAuditLog`: append-only event log write. -/
def appendAuditLog (st : EscrowState) (e : AuditLogEntry) : EscrowState :=
  { st with auditLog := st.auditLog ++ [e] }

/-- Jurisdiction retention table (`RETENTION_POLICIES`), in years. -/
def RETENTION_POLICIES : List (String × Nat) :=
  [("US", 5), ("EU", 5), ("UK", 5), ("DEFAULT", 5)]

/-- Function `getRetentionMs`: years × 365.25 d in milliseconds; one
Julian year is exactly 31 557 600 000 ms, so the source's float
arithmetic is exact. -/
def getRetentionMs (jurisdiction : String) : Nat :=
  let years := ((RETENTION_POLICIES.find? (fun p => p.1 == jurisdiction)).map (·.2)).getD 5
  years * 31557600000

/-- Distinct error kinds thrown by the escrow operations in
`db/stores.ts` (the source throws `Error`s with distinct messages; only
the `notFound` message contains the substring `"not found"`). -/
inductive EscrowError where
  | notFound
  | invalidatedEntry
  | expired
  | storeLayerCorrupt
  | decryptFailed (e : AesError)
  | integrityFailed
  | parseFailed
deriving DecidableEq, Repr

/-- Function `putEscrowEntry`: hash the canonical plaintext before
encryption, encrypt under the regulator key (layer 1), build the entry
with `createdAt = now` and `expiresAt = now + retention(jurisdiction)`,
seal it under the store key (layer 2), write it to the escrow KV and
append an `escrow_create` audit entry. -/
def putEscrowEntry (st : EscrowState) (escrowId : String) (rawPII : RawPII)
    (regulatorKey : Bytes) (regulatorKeyId credentialId jurisdiction : String)
    (now iv : Nat) : Except AesError EscrowState :=
  let plaintext := encodePII rawPII
  let integrityHash := sha256hex plaintext
  match encrypt plaintext regulatorKey iv with
  | .error e => .error e
  | .ok encryptedBlob =>
    let entry : EscrowEntry :=
      ⟨encryptedBlob, regulatorKeyId, credentialId, now,
        now + getRetentionMs jurisdiction, false, integrityHash⟩
    let st1 := { st with escrow := kvPut st.escrow escrowId ⟨st.storeKey, entry⟩ }
    .ok (appendAuditLog st1
      ⟨.escrow_create, escrowId, "system", now,
        [("regulatorKeyId", regulatorKeyId), ("jurisdiction", jurisdiction),
          ("credentialId", credentialId)]⟩)

/-- Function `getEscrowEntry`: read and store-decrypt the entry; fail
distinctly when not found / invalidated / expired (`Date.now() >
expiresAt`, strict); append the `escrow_access` audit entry; only then
regulator-decrypt the blob, verify the SHA-256 integrity hash, and parse
the plaintext. -/
def getEscrowEntry (st : EscrowState) (escrowId : String) (regulatorKey : Bytes)
    (actorId : String) (now : Nat) : Except EscrowError RawPII × EscrowState :=
  match jsMapGet st.escrow escrowId with
  | none => (.error .notFound, st)
  | some box =>
    if box.keyTag ≠ st.storeKey then (.error .storeLayerCorrupt, st)
    else if box.entry.invalidated then (.error .invalidatedEntry, st)
    else if now > box.entry.expiresAt then (.error .expired, st)
    else
      let st1 := appendAuditLog st
        ⟨.escrow_access, escrowId, actorId, now,
          [("regulatorKeyId", box.entry.regulatorKeyId)]⟩
      match decrypt box.entry.encryptedBlob regulatorKey with
      | .error e => (.error (.decryptFailed e), st1)
      | .ok plaintext =>
        if sha256hex plaintext ≠ box.entry.integrityHash then
          (.error .integrityFailed, st1)
        else
          match decodePII plaintext with
          | none => (.error .parseFailed, st1)
          | some pii => (.ok pii, st1)

/-- Function `rotateEscrowEntry`: within the retention window and not
forced, log a deferred `escrow_rotate` and return `success:false`;
otherwise crypto-shred — overwrite the blob (the source encrypts 256
random bytes under a random, discarded key; `shredBlob` stands for that
draw), set `invalidated`, set `integrityHash = "INVALIDATED"`, rewrite
the entry and log a completed `escrow_rotate`. -/
def rotateEscrowEntry (st : EscrowState) (escrowId actorId : String)
    (forceErasure : Bool) (now : Nat) (shredBlob : EncryptedPayload) :
    Except EscrowError ((Bool × String) × EscrowState) :=
  match jsMapGet st.escrow escrowId with
  | none => .ok ((false, "Entry not found"), st)
  | some box =>
    if box.keyTag ≠ st.storeKey then .error .storeLayerCorrupt
    else if box.entry.expiresAt - now > 0 ∧ forceErasure = false then
      .ok ((false, "Retention period active"),
        appendAuditLog st
          ⟨.escrow_rotate, escrowId, actorId, now,
            [("result", "deferred"), ("reason", "retention_period_active")]⟩)
    else
      let shredded : EscrowEntry :=
        { box.entry with
          encryptedBlob := shredBlob, invalidated := true,
          integrityHash := "INVALIDATED" }
      let st1 := { st with escrow := kvPut st.escrow escrowId ⟨st.storeKey, shredded⟩ }
      .ok ((true, "Entry crypto-shredded and invalidated"),
        appendAuditLog st1
          ⟨.escrow_rotate, escrowId, actorId, now, [("result", "completed")]⟩)

/-- Iteration body of `purgeExpiredEscrow` over the snapshot of the
store: for every entry past `expiresAt` (strict) and not yet
invalidated, force a rotation and count it. -/
def purgeGo (now : Nat) (shredBlob : EncryptedPayload) :
    List (String × StoreBox) → EscrowState → Nat → Except EscrowError (Nat × EscrowState)
  | [], st, acc => .ok (acc, st)
  | (k, box) :: rest, st, acc =>
    if box.keyTag ≠ st.storeKey then .error .storeLayerCorrupt
    else if now > box.entry.expiresAt ∧ box.entry.invalidated = false then
      match rotateEscrowEntry st k "system/purge" true now shredBlob with
      | .error e => .error e
      | .ok (_, st') => purgeGo now shredBlob rest st' (acc + 1)
    else purgeGo now shredBlob rest st acc

/-- Function `purgeExpiredEscrow`: iterate the escrow store and
crypto-shred every expired, not-yet-invalidated entry; returns the
count. -/
def purgeExpiredEscrow (st : EscrowState) (now : Nat)
    (shredBlob : EncryptedPayload) : Except EscrowError (Nat × EscrowState) :=
  purgeGo now shredBlob st.escrow st 0

/-- Function `escrowExists`: probe `getEscrowEntry` with a random
32-byte key (`probeKey`); treat only the "not found" error as absence
(the source inspects the thrown message for the substring `"not found"`,
which only the not-found error carries). -/
def escrowExists (st : EscrowState) (escrowId : String) (probeKey : Bytes)
    (now : Nat) : Bool × EscrowState :=
  match getEscrowEntry st escrowId probeKey "existence_check" now with
  | (.ok _, st') => (true, st')
  | (.error e, st') => if e = .notFound then (false, st') else (true, st')


theorem maskBytes_involutive (key : Bytes) (iv : Nat) :
    ∀ (i : Nat) (bs : Bytes), maskBytes key iv i (maskBytes key iv i bs) = bs := by
  intro i bs
  induction bs generalizing i with
  | nil => rfl
  | cons b bs ih => simp [maskBytes, ih, Nat.xor_cancel_right]

theorem decrypt_encrypt {plaintext key : Bytes} {iv : Nat} {payload : EncryptedPayload}
    (hk : key.length = 32) (he : encrypt plaintext key iv = .ok payload) :
    decrypt payload key = .ok plaintext := by
  unfold encrypt at he
  rw [if_neg (by omega)] at he
  simp only [Except.ok.injEq] at he
  subst he
  unfold decrypt
  rw [if_neg (by omega), if_pos ⟨rfl, rfl⟩, maskBytes_involutive]

theorem decodeStr_encodeStr (s : String) (r : Bytes) :
    decodeStr (encodeStr s ++ r) = some (s, r) := by
  rcases s with ⟨cs⟩
  unfold decodeStr encodeStr
  simp only [List.cons_append]
  have hlen : (List.map Char.toNat cs).length = cs.length := List.length_map _ _
  have hle : String.length ⟨cs⟩ ≤ (List.map Char.toNat cs ++ r).length := by
    simp [String.length, hlen]
  rw [if_pos hle]
  have hslen : String.length ⟨cs⟩ = (List.map Char.toNat cs).length := by
    simp [String.length, hlen]
  rw [hslen, List.take_left, List.drop_left]
  simp only [List.map_map, Option.some.injEq, Prod.mk.injEq]
  refine ⟨?_, by simp⟩
  congr 1
  have : (Char.ofNat ∘ Char.toNat) = id := by
    funext c
    simp [Char.ofNat_toNat]
  rw [this, List.map_id]

theorem decodePII_encodePII (p : RawPII) : decodePII (encodePII p) = some p := by
  rcases p with ⟨f, d, cc, dt, dn, ref, va⟩
  simp only [decodePII, encodePII, decodeNat, Option.bind_eq_bind, List.cons_append,
    List.nil_append, decodeStr_encodeStr, Option.some_bind, List.isEmpty_nil, if_true]

theorem jsMapGet_kvPut_self (l : List (String × α)) (k : String) (v : α) :
    jsMapGet (kvPut l k v) k = some v := by
  simp [kvPut, jsMapGet, List.find?]

/-! ## Claim C2 — escrow round trip -/

/-- C2: for every raw-PII record and 32-byte regulator key, `put_escrow`
followed by `get_escrow` with the same escrow id and key, at any time up
to and including expiry and with no rotation in between, succeeds and
returns exactly the original record — in particular the SHA-256
integrity check recomputed on decrypt matches the `integrityHash` stored
before encryption. -/
theorem C2_escrow_roundtrip (st : EscrowState) (escrowId : String) (pii : RawPII)
    (k : Bytes) (kid cid jur : String) (t0 iv t1 : Nat) (actor : String)
    (st' : EscrowState) (hk : k.length = 32) (ht : t1 ≤ t0 + getRetentionMs jur)
    (hput : putEscrowEntry st escrowId pii k kid cid jur t0 iv = .ok st') :
    (getEscrowEntry st' escrowId k actor t1).1 = .ok pii := by
  have henc : encrypt (encodePII pii) k iv =
      .ok ⟨iv, maskBytes k iv 0 (encodePII pii),
        gcmTag k iv (maskBytes k iv 0 (encodePII pii)), k⟩ := by
    unfold encrypt
    rw [if_neg (by omega)]
  unfold putEscrowEntry at hput
  simp only [henc, Except.ok.injEq] at hput
  subst hput
  have hnotexp : ¬ (t1 > t0 + getRetentionMs jur) := by omega
  unfold getEscrowEntry appendAuditLog
  rw [jsMapGet_kvPut_self]
  simp only
  rw [if_neg (by simp)]
  rw [if_neg (by simp)]
  rw [if_neg (by simpa using hnotexp)]
  rw [decrypt_encrypt hk henc]
  simp [decodePII_encodePII]


/-- The tail of `getEscrowEntry` after the audit write: regulator-key
decryption, integrity check, and parse. -/
def postDecrypt (box : StoreBox) (k : Bytes) : Except EscrowError RawPII :=
  match decrypt box.entry.encryptedBlob k with
  | .error e => .error (.decryptFailed e)
  | .ok plaintext =>
    if sha256hex plaintext ≠ box.entry.integrityHash then .error .integrityFailed
    else
      match decodePII plaintext with
      | none => .error .parseFailed
      | some pii => .ok pii

theorem getEscrowEntry_reduce (st : EscrowState) (escrowId : String)
    (box : StoreBox) (k : Bytes) (actor : String) (now : Nat)
    (hfound : jsMapGet st.escrow escrowId = some box)
    (hkey : box.keyTag = st.storeKey)
    (hinv : box.entry.invalidated = false)
    (hexp : ¬ now > box.entry.expiresAt) :
    getEscrowEntry st escrowId k actor now =
      (postDecrypt box k,
        appendAuditLog st
          ⟨.escrow_access, escrowId, actor, now,
            [("regulatorKeyId", box.entry.regulatorKeyId)]⟩) := by
  unfold getEscrowEntry postDecrypt
  rw [hfound]
  simp only
  rw [if_neg (by simp [hkey]), if_neg (by simp [hinv]), if_neg hexp]
  rcases hd : decrypt box.entry.encryptedBlob k with e | pt
  · rfl
  · by_cases hsh : sha256hex pt ≠ box.entry.integrityHash
    · simp [hsh]
    · rcases hdp : decodePII pt with _ | pii <;> simp [hsh, hdp]

theorem postDecrypt_ne_expired (box : StoreBox) (k : Bytes) :
    postDecrypt box k ≠ .error .expired := by
  unfold postDecrypt
  rcases decrypt box.entry.encryptedBlob k with e | pt
  · simp
  · simp only
    by_cases hsh : sha256hex pt ≠ box.entry.integrityHash
    · rw [if_pos hsh]; simp
    · rw [if_neg hsh]
      rcases decodePII pt with _ | pii <;> simp

theorem postDecrypt_ne_notFound (box : StoreBox) (k : Bytes) :
    postDecrypt box k ≠ .error .notFound := by
  unfold postDecrypt
  rcases decrypt box.entry.encryptedBlob k with e | pt
  · simp
  · simp only
    by_cases hsh : sha256hex pt ≠ box.entry.integrityHash
    · rw [if_pos hsh]; simp
    · rw [if_neg hsh]
      rcases decodePII pt with _ | pii <;> simp

theorem getEscrowEntry_expired (st : EscrowState) (escrowId : String)
    (box : StoreBox) (k : Bytes) (actor : String) (now : Nat)
    (hfound : jsMapGet st.escrow escrowId = some box)
    (hkey : box.keyTag = st.storeKey)
    (hinv : box.entry.invalidated = false)
    (hexp : now > box.entry.expiresAt) :
    getEscrowEntry st escrowId k actor now = (.error .expired, st) := by
  unfold getEscrowEntry
  rw [hfound]
  simp only
  rw [if_neg (by simp [hkey]), if_neg (by simp [hinv]), if_pos hexp]

/-! ## Claim C4 — the expiry boundary is strict

The source tests `Date.now() > entry.expiresAt` in `getEscrowEntry` and
`now > entry.expiresAt` in `purgeExpiredEscrow`, both strict: an entry
whose `expiresAt` equals the current time is still active, contradicting
the claim that it is treated as expired. -/

/-- C4 concrete 32-byte regulator key. -/
def c4Key : Bytes := List.replicate 32 7

/-- C4 concrete PII record. -/
def c4PII : RawPII := ⟨"Al", "1990-01-15", 840, "passport", "X1", "m1", 170⟩

/-- C4 concrete initial state. -/
def c4St0 : EscrowState := ⟨[1, 2], [], []⟩

/-- C4 state after a `put_escrow` at t = 0 under jurisdiction `US`
(retention exactly 157 788 000 000 ms). -/
def c4State : EscrowState :=
  match putEscrowEntry c4St0 "esc1" c4PII c4Key "default" "cred1" "US" 0 5 with
  | .ok st => st
  | .error _ => c4St0

/-- Timestamp equal to the stored `expiresAt` of the C4 entry. -/
def c4ExpiresAt : Nat := 157788000000

/-- Shred payload stand-in for the C4 purge run. -/
def c4Shred : EncryptedPayload := ⟨0, [], 0, []⟩

/-- C4 (counterexample): for the concrete entry stored at t = 0, at
`now = expiresAt` exactly, `get_escrow` succeeds (it does not fail with
the expired error) and `purge_expired` counts and shreds nothing —
the entry is not treated as expired, contradicting the claim. -/
theorem C4_boundary_counterexample :
    (getEscrowEntry c4State "esc1" c4Key "regulator" c4ExpiresAt).1 = .ok c4PII ∧
    (purgeExpiredEscrow c4State c4ExpiresAt c4Shred).map (fun p => p.1) = .ok 0 := by
  constructor <;> rfl

/-- C4 (amended): an escrow entry is treated as expired only when
`now > expiresAt` strictly: `get_escrow` fails with the expired error
exactly when `now > expiresAt`, and `purge_expired` counts and
crypto-shreds an entry exactly when `now > expiresAt` (and it is not yet
invalidated); at `now = expiresAt` the entry is still active. -/
theorem C4_expiry_is_strict (st : EscrowState) (escrowId : String) (box : StoreBox)
    (k : Bytes) (actor : String) (now : Nat)
    (hfound : jsMapGet st.escrow escrowId = some box)
    (hkey : box.keyTag = st.storeKey)
    (hinv : box.entry.invalidated = false) :
    ((getEscrowEntry st escrowId k actor now).1 = .error .expired ↔
      now > box.entry.expiresAt) ∧
    (∀ (st1 : EscrowState) (shredBlob : EncryptedPayload),
      st1.escrow = [(escrowId, box)] → st1.storeKey = st.storeKey →
      (purgeExpiredEscrow st1 now shredBlob).map (fun p => p.1) =
        .ok (if now > box.entry.expiresAt then 1 else 0)) := by
  constructor
  · by_cases hexp : now > box.entry.expiresAt
    · rw [getEscrowEntry_expired st escrowId box k actor now hfound hkey hinv hexp]
      simp [hexp]
    · rw [getEscrowEntry_reduce st escrowId box k actor now hfound hkey hinv hexp]
      simp only [iff_false_intro hexp, iff_false]
      exact postDecrypt_ne_expired box k
  · intro st1 shredBlob hesc hkey1
    have hkt : box.keyTag = st1.storeKey := hkey1 ▸ hkey
    have hget1 : jsMapGet st1.escrow escrowId = some box := by
      rw [hesc]; simp [jsMapGet, List.find?]
    unfold purgeExpiredEscrow
    rw [hesc]
    unfold purgeGo
    rw [if_neg (by simp [hkt])]
    by_cases hexp : now > box.entry.expiresAt
    · rw [if_pos ⟨hexp, hinv⟩]
      unfold rotateEscrowEntry
      rw [hget1]
      simp only
      rw [if_neg (by simp [hkt]), if_neg (by simp)]
      rw [if_pos hexp]
      rfl
    · rw [if_neg (by simp [hexp])]
      rw [if_neg hexp]
      rfl

/-- C4 witness box: the stored entry of `c4State`. -/
def c4Box : StoreBox :=
  match jsMapGet c4State.escrow "esc1" with
  | some b => b
  | none => ⟨[], ⟨⟨0, [], 0, []⟩, "", "", 0, 0, false, ""⟩⟩

/-- C4 (witness): one millisecond past expiry, the concrete `get_escrow`
fails with the expired error. -/
theorem C4_expiry_is_strict_witness :
    (jsMapGet c4State.escrow "esc1" = some c4Box ∧
      c4Box.keyTag = c4State.storeKey ∧ c4Box.entry.invalidated = false ∧
      c4ExpiresAt + 1 > c4Box.entry.expiresAt) ∧
    (getEscrowEntry c4State "esc1" c4Key "regulator" (c4ExpiresAt + 1)).1 =
      .error .expired :=
  ⟨⟨rfl, rfl, rfl, by decide⟩,
    (C4_expiry_is_strict c4State "esc1" c4Box c4Key "regulator" (c4ExpiresAt + 1)
      rfl rfl rfl).1.2 (by decide)⟩

/-! ## Claim C10 — the `escrow_access` audit entry precedes decryption -/

/-- C10: whenever `getEscrowEntry` finds an entry that is neither
invalidated nor expired, the state after the call carries an appended
`escrow_access` audit entry — for every regulator key, including ones
the blob was not encrypted under; with a wrong key the call itself
fails with an error distinct from "not found" (so the audit write is
not rolled back on error), and an `escrowExists` probe on such an entry
returns `true` while leaving the same `escrow_access` audit entry
behind. -/
theorem C10_access_audited_before_decrypt (st : EscrowState) (escrowId : String)
    (box : StoreBox) (k : Bytes) (actor : String) (now : Nat)
    (hfound : jsMapGet st.escrow escrowId = some box)
    (hkey : box.keyTag = st.storeKey)
    (hinv : box.entry.invalidated = false)
    (hexp : ¬ now > box.entry.expiresAt) :
    ((getEscrowEntry st escrowId k actor now).2.auditLog =
      st.auditLog ++ [⟨.escrow_access, escrowId, actor, now,
        [("regulatorKeyId", box.entry.regulatorKeyId)]⟩]) ∧
    (k ≠ box.entry.encryptedBlob.keyTag →
      ∃ e, (getEscrowEntry st escrowId k actor now).1 = .error e ∧
        e ≠ EscrowError.notFound) ∧
    ((escrowExists st escrowId k now).1 = true) ∧
    ((escrowExists st escrowId k now).2.auditLog =
      st.auditLog ++ [⟨.escrow_access, escrowId, "existence_check", now,
        [("regulatorKeyId", box.entry.regulatorKeyId)]⟩]) := by
  have hred := fun a =>
    getEscrowEntry_reduce st escrowId box k a now hfound hkey hinv hexp
  have hex : escrowExists st escrowId k now =
      (true, appendAuditLog st
        ⟨.escrow_access, escrowId, "existence_check", now,
          [("regulatorKeyId", box.entry.regulatorKeyId)]⟩) := by
    unfold escrowExists
    rw [hred "existence_check"]
    rcases hpd : postDecrypt box k with e | pii
    · have hne : e ≠ EscrowError.notFound := fun h =>
        postDecrypt_ne_notFound box k (h ▸ hpd)
      simp [hne]
    · rfl
  refine ⟨?_, ?_, ?_, ?_⟩
  · rw [hred actor]
    simp [appendAuditLog]
  · intro hwrong
    have hdec : ∃ e', decrypt box.entry.encryptedBlob k = .error e' := by
      unfold decrypt
      by_cases hkl : k.length ≠ 32
      · exact ⟨_, by rw [if_pos hkl]⟩
      · have hcond : ¬ (box.entry.encryptedBlob.keyTag = k ∧
            box.entry.encryptedBlob.tag =
              gcmTag k box.entry.encryptedBlob.iv box.entry.encryptedBlob.ciphertext) := by
          rintro ⟨h1, _⟩
          exact hwrong h1.symm
        exact ⟨AesError.authFailed, by rw [if_neg hkl, if_neg hcond]⟩
    obtain ⟨e', he'⟩ := hdec
    rw [hred actor]
    refine ⟨.decryptFailed e', ?_, by simp⟩
    show postDecrypt box k = _
    unfold postDecrypt
    rw [he']
  · rw [hex]
  · rw [hex]
    simp [appendAuditLog]


/-- C2 witness fixtures: a concrete 32-byte regulator key. -/
def c2Key : Bytes := List.replicate 32 11

/-- C2 concrete PII record. -/
def c2PII : RawPII := ⟨"Bo", "1991-02-03", 250, "national_id", "N9", "m2", 171⟩

/-- C2 concrete initial state. -/
def c2St0 : EscrowState := ⟨[4, 4], [], []⟩

/-- C2 state after the concrete `put_escrow` at t = 0. -/
def c2State : EscrowState :=
  match putEscrowEntry c2St0 "esc2" c2PII c2Key "default" "cred2" "US" 0 5 with
  | .ok st => st
  | .error _ => c2St0

/-- C2 (witness): the concrete put-then-get round trip at t = 100
returns the original record. -/
theorem C2_escrow_roundtrip_witness :
    (c2Key.length = 32 ∧ (100 : Nat) ≤ 0 + getRetentionMs "US" ∧
      putEscrowEntry c2St0 "esc2" c2PII c2Key "default" "cred2" "US" 0 5 =
        .ok c2State) ∧
    (getEscrowEntry c2State "esc2" c2Key "regulator" 100).1 = .ok c2PII :=
  ⟨⟨by decide, by decide, rfl⟩,
    C2_escrow_roundtrip c2St0 "esc2" c2PII c2Key "default" "cred2" "US" 0 5 100
      "regulator" c2State (by decide) (by decide) rfl⟩

/-- C10 witness fixtures: the regulator key the blob is encrypted under. -/
def c10Key : Bytes := List.replicate 32 3

/-- C10 wrong probe key (32 bytes, distinct from `c10Key`). -/
def c10Probe : Bytes := List.replicate 32 4

/-- C10 concrete PII record. -/
def c10PII : RawPII := ⟨"Cy", "1992-03-04", 36, "passport", "P7", "m3", 172⟩

/-- C10 concrete initial state. -/
def c10St0 : EscrowState := ⟨[8], [], []⟩

/-- C10 state after the concrete `put_escrow` at t = 0. -/
def c10State : EscrowState :=
  match putEscrowEntry c10St0 "esc3" c10PII c10Key "default" "cred3" "US" 0 5 with
  | .ok st => st
  | .error _ => c10St0

/-- C10 witness box: the stored entry of `c10State`. -/
def c10Box : StoreBox :=
  match jsMapGet c10State.escrow "esc3" with
  | some b => b
  | none => ⟨[], ⟨⟨0, [], 0, []⟩, "", "", 0, 0, false, ""⟩⟩

/-- C10 (witness): a concrete `escrowExists` probe with a wrong 32-byte
key reports existence (and, by the theorem, leaves the audit entry). -/
theorem C10_access_audited_witness :
    (jsMapGet c10State.escrow "esc3" = some c10Box ∧
      c10Box.keyTag = c10State.storeKey ∧ c10Box.entry.invalidated = false ∧
      ¬ (10 : Nat) > c10Box.entry.expiresAt) ∧
    (escrowExists c10State "esc3" c10Probe 10).1 = true :=
  ⟨⟨rfl, rfl, rfl, by decide⟩,
    (C10_access_audited_before_decrypt c10State "esc3" c10Box c10Probe "probe" 10
      rfl rfl rfl (by decide)).2.2.1⟩


/-! ## Poseidon, EdDSA and credential issuance
(`issuer/poseidon.ts`, `crypto/eddsa.ts`, `issuer/credential.ts`)

The Poseidon permutation and the BabyJubJub EdDSA scheme live in
circomlibjs, which is not part of this repository; they are modelled
from the spec (§4.1).  Honest EdDSA keys, nonce commitments and public
keys are all elements of the cyclic subgroup generated by the base point
`B8`, so the model represents each point by its discrete logarithm with
respect to `B8` — a scalar in `ZMod l` where `l` is the subgroup order —
under which point addition is scalar addition and scalar multiplication
is multiplication.  The issuance pipeline itself (`issueCredential`) is
translated from the source. -/

/-- Order of the BN254 scalar field Fr (the field of circuit signals and
Poseidon digests). -/
def bn254r : Nat :=
  21888242871839275222246405745257275088548364400416034343698204186575808495617

/-- BN254 scalar field elements. -/
abbrev F := ZMod bn254r

/-- Order of the prime-order subgroup of BabyJubJub (the scalar group of
EdDSA). -/
def bjjSubOrder : Nat :=
  2736030358979909402780800718157159386076813972158567259200215660948447373041

/-- Scalars of the BabyJubJub prime-order subgroup; in this model a
subgroup point is represented by its discrete log, also a `BjjScalar`. -/
abbrev BjjScalar := ZMod bjjSubOrder

/-- Modelled from the spec: circomlib Poseidon with arity 3 over BN254
(`buildPoseidon` from circomlibjs, not in the repository; its round
constants are not available here).  Every claim proved about it uses
only that it is a deterministic function of its three field inputs, so
a concrete polynomial stand-in is used. -/
def poseidon3 (a b c : F) : F :=
  a * a + b * 17 + c * 257 + 3

/-- Function `poseidonHash`/`hashCredential` in `issuer/poseidon.ts`:
`Poseidon(age, country, secret)`; `BigInt(age)` may be negative, which
`F.e` maps into the field, hence the `Int` cast. -/
def hashCredential (age : Int) (country : Nat) (secret : Nat) : F :=
  poseidon3 (age : F) (country : F) (secret : F)

namespace Eddsa

/-- EdDSA signature (`EdDSASignature` in `crypto/eddsa.ts`): the
commitment point `R8` (discrete-log form) and the scalar `S`. -/
structure EdDSASignature where
  R8 : BjjScalar
  S : BjjScalar
deriving DecidableEq, Repr

/-- Modelled from the spec: the pruned-Blake512 key derivation of
circomlibjs EdDSA (`prv2pub`), producing the secret scalar `s` from the
32-byte private key; a deterministic stand-in. -/
def keyScalar (priv : Nat) : BjjScalar :=
  (priv * 8 + 5 : Nat)

/-- Modelled from the spec: the public key `A = s · B8` of circomlibjs
`prv2pub`, in discrete-log form. -/
def prv2pub (priv : Nat) : BjjScalar :=
  keyScalar priv

/-- Modelled from the spec: the deterministic nonce
`r = Blake512(kBuf[32..64] ‖ msg) mod l` of circomlibjs `signPoseidon`;
a deterministic stand-in. -/
def nonceOf (priv : Nat) (msg : F) : BjjScalar :=
  (priv * 131 + msg.val * 31 + 7 : Nat)

/-- Modelled from the spec: the transcript hash
`Poseidon5(R8.x, R8.y, A.x, A.y, msg)` of circomlibjs EdDSA, reduced to
a scalar; a deterministic stand-in taking the discrete-log forms. -/
def hashTranscript (r8 a : BjjScalar) (msg : F) : BjjScalar :=
  r8 * 1009 + a * 2003 + (msg.val : BjjScalar) + 11

/-- Modelled from the spec: circomlibjs `signPoseidon` as wrapped by
`sign` in `crypto/eddsa.ts`: `R8 = r · B8` and
`S = r + H(R8, A, msg) · s (mod l)`, in discrete-log form. -/
def sign (priv : Nat) (msg : F) : EdDSASignature :=
  let s := keyScalar priv
  let r := nonceOf priv msg
  ⟨r, r + hashTranscript r (prv2pub priv) msg * s⟩

/-- Modelled from the spec: circomlibjs `verifyPoseidon` as wrapped by
`verify` in `crypto/eddsa.ts`: check `S · B8 = R8 + H(R8, A, msg) · A`,
in discrete-log form. -/
def verify (pub : BjjScalar) (msg : F) (sig : EdDSASignature) : Bool :=
  decide (sig.S = sig.R8 + hashTranscript sig.R8 pub msg * pub)

end Eddsa

/-- Model of a calendar date as read back by the JavaScript `Date`
accessors (`getFullYear`/`getMonth`/`getDate`); the month is kept
1-based — only month differences enter the computation. -/
structure SimpleDate where
  year : Nat
  month : Nat
  day : Nat
deriving DecidableEq, Repr

/-- Age computation of `issueCredential` (`issuer/credential.ts`
lines 82-89): Gregorian year difference with month/day carry.  No range
check of any kind is performed. -/
def computeAge (dob nowDate : SimpleDate) : Int :=
  let age : Int := (nowDate.year : Int) - (dob.year : Int)
  let monthDiff : Int := (nowDate.month : Int) - (dob.month : Int)
  if monthDiff < 0 ∨ (monthDiff = 0 ∧ nowDate.day < dob.day) then age - 1 else age

/-- KYC result (`KycResult` in `kyc/types.ts`) as consumed by
`issueCredential`; `dateOfBirth` is the parsed date and the unused
`confidence` float is omitted. -/
structure KycResult where
  passed : Bool
  fullName : String
  dateOfBirth : SimpleDate
  countryCode : Nat
  documentType : String
  documentNumber : String
  providerRef : String
  verifiedAt : Nat
deriving DecidableEq, Repr

/-- Signed credential (`SignedCredential` in `issuer/credential.ts`);
field elements are kept as such rather than as decimal strings, and the
signature/public-key points are in the discrete-log form of the EdDSA
model. -/
structure SignedCredential where
  id : String
  credentialHash : F
  signatureR8 : BjjScalar
  signatureS : BjjScalar
  issuerPubKey : BjjScalar
  userSecret : Nat
  boundAddress : Option String
  level : Nat
  issuedAt : Nat
  expiresAt : Nat

/-- Credential TTL (`CREDENTIAL_TTL_MS`): 365 days in milliseconds. -/
def CREDENTIAL_TTL_MS : Nat := 365 * 24 * 60 * 60 * 1000

/-- Function `issueCredential` (`issuer/credential.ts`): compute the age
from `dateOfBirth` and the wall clock, hash `(age, countryCode,
userSecret)` with Poseidon, sign the hash with the issuer key, resolve
the level (JS truthiness: a number is truthy iff nonzero), and assemble
the credential.  The random draws (`userSecret`, the issuer key) and the
clock become explicit arguments. -/
def issueCredential (kycResult : KycResult) (boundAddress : Option String)
    (level : Option Nat) (issuerPriv userSecret : Nat) (nowDate : SimpleDate)
    (nowTs : Nat) (id : String) : SignedCredential :=
  let age := computeAge kycResult.dateOfBirth nowDate
  let credHash := hashCredential age kycResult.countryCode userSecret
  let signature := Eddsa.sign issuerPriv credHash
  let resolvedLevel : Nat :=
    match level with
    | some l => l
    | none =>
      if kycResult.countryCode ≠ 0 ∧ age ≠ 0 then 3
      else if age ≠ 0 then 1 else 0
  { id := id, credentialHash := credHash, signatureR8 := signature.R8,
    signatureS := signature.S, issuerPubKey := Eddsa.prv2pub issuerPriv,
    userSecret := userSecret, boundAddress := boundAddress,
    level := resolvedLevel, issuedAt := nowTs,
    expiresAt := nowTs + CREDENTIAL_TTL_MS }

/-! ## Claim C1 — issued credentials carry the Poseidon hash and a valid
EdDSA signature -/

/-- C1: every credential issued from a passed KYC result has
`credentialHash = Poseidon(age, countryCode, userSecret)` with arity 3,
and its signature `(R8, S)` verifies under the returned issuer public
key for that hash. -/
theorem C1_issue_hash_and_signature (kyc : KycResult) (ba : Option String)
    (lvl : Option Nat) (issuerPriv userSecret : Nat) (nowDate : SimpleDate)
    (nowTs : Nat) (id : String) (hpassed : kyc.passed = true) :
    ((issueCredential kyc ba lvl issuerPriv userSecret nowDate nowTs id).credentialHash =
      poseidon3 ((computeAge kyc.dateOfBirth nowDate : Int) : F)
        (kyc.countryCode : F) (userSecret : F)) ∧
    (Eddsa.verify
      (issueCredential kyc ba lvl issuerPriv userSecret nowDate nowTs id).issuerPubKey
      (issueCredential kyc ba lvl issuerPriv userSecret nowDate nowTs id).credentialHash
      ⟨(issueCredential kyc ba lvl issuerPriv userSecret nowDate nowTs id).signatureR8,
        (issueCredential kyc ba lvl issuerPriv userSecret nowDate nowTs id).signatureS⟩ =
      true) := by
  constructor
  · rfl
  · show Eddsa.verify _ _ _ = true
    unfold Eddsa.verify issueCredential Eddsa.sign Eddsa.prv2pub
    simp

/-- C1 (witness): the theorem instantiated at a concrete passed KYC
result. -/
theorem C1_issue_hash_and_signature_witness :
    ((⟨true, "Alice Ng", ⟨1990, 1, 15⟩, 840, "passport", "X123", "m0",
        1700000000000⟩ : KycResult).passed = true) ∧
    ((issueCredential
        ⟨true, "Alice Ng", ⟨1990, 1, 15⟩, 840, "passport", "X123", "m0",
          1700000000000⟩ none none 6 42 ⟨2025, 10, 12⟩ 1760227200000
        "uuid1").credentialHash =
      poseidon3 ((computeAge ⟨1990, 1, 15⟩ ⟨2025, 10, 12⟩ : Int) : F)
        ((840 : Nat) : F) ((42 : Nat) : F)) :=
  ⟨rfl,
    (C1_issue_hash_and_signature
      ⟨true, "Alice Ng", ⟨1990, 1, 15⟩, 840, "passport", "X123", "m0",
        1700000000000⟩ none none 6 42 ⟨2025, 10, 12⟩ 1760227200000 "uuid1"
      rfl).1⟩

/-! ## Claim C5 — no 8-bit bound on the computed age

The spec (and the `AgeCheck(bits)` circuit, which compares with
`LessThan(8)` and is only sound for 8-bit inputs) requires the age to
fit in 8 bits, but `issueCredential` performs no range check: a date of
birth in year 1001 (which passes the `^\d{4}-\d{2}-\d{2}$` request
schema) yields age 1024 and a credential is still issued. -/

/-- C5 concrete KYC result with `dateOfBirth` in year 1001. -/
def c5Kyc : KycResult :=
  ⟨true, "Old Timer", ⟨1001, 1, 15⟩, 840, "passport", "Z1", "m5", 1700000000000⟩

/-- C5 (code bug): with the wall clock at 2025-10-12, the age computed
for `dateOfBirth = 1001-01-15` is 1024, which does not fit in 8 bits,
and `issueCredential` still issues a credential whose hash commits to
that out-of-range age. -/
theorem C5_age_not_8bit_checked :
    computeAge ⟨1001, 1, 15⟩ ⟨2025, 10, 12⟩ = 1024 ∧
    ¬ (0 ≤ computeAge ⟨1001, 1, 15⟩ ⟨2025, 10, 12⟩ ∧
        computeAge ⟨1001, 1, 15⟩ ⟨2025, 10, 12⟩ ≤ 255) ∧
    (issueCredential c5Kyc none none 6 42 ⟨2025, 10, 12⟩ 1760227200000
        "uuid5").credentialHash = hashCredential 1024 840 42 := by
  have h : computeAge ⟨1001, 1, 15⟩ ⟨2025, 10, 12⟩ = 1024 := by decide
  refine ⟨h, by rw [h]; omega, ?_⟩
  show hashCredential (computeAge c5Kyc.dateOfBirth ⟨2025, 10, 12⟩) 840 42 =
    hashCredential 1024 840 42
  rw [show computeAge c5Kyc.dateOfBirth ⟨2025, 10, 12⟩ = 1024 from h]


/-! ## Claim C3 — `POST /proof/verify` (`api/routes/proof.ts`)

Groth16 verification itself (snarkjs) is external; its outcome for the
submitted proof enters the model as the `groth16Valid` argument.  The
two-layer cache (`getCached`/`setCached` in the cache module), the
nullifier registry (`isNullifierUsed`/`registerNullifier` in
`db/stores.ts`) and the route pipeline are translated from the source.
The route emits an ordered trace of its effects, so that "registers the
nullifier before caching and responding" is a statement about the
trace. -/

/-- Cached proof verification result (`ProofCacheEntry` in
`db/stores.ts`). -/
structure ProofCacheEntry where
  valid : Bool
  verifiedAt : Nat
  nullifier : String
deriving DecidableEq, Repr

/-- Nullifier registry entry (`NullifierEntry` in `db/stores.ts`). -/
structure NullifierEntry where
  used : Bool
  credentialId : String
  appId : String
  usedAt : Nat
deriving DecidableEq, Repr

/-- Server-side state touched by the proof-verification route: the
in-process LRU (L1), the persistent proof cache (L2), the nullifier
store and the audit log. -/
structure VerifierState where
  l1 : LruState
  l2 : List (String × ProofCacheEntry)
  nullifiers : List (String × NullifierEntry)
  auditLog : List AuditLogEntry
deriving DecidableEq, Repr

/-- Modelled from the spec: the fingerprint
`SHA-256(canonical_json({proof, publicSignals}))` (`hashProof` in the
cache module; node crypto and `JSON.stringify` are external) — a
deterministic stand-in over an opaque proof representation. -/
def hashProof (proof : String) (signals : List String) : String :=
  proof ++ "|" ++ String.intercalate "," signals

/-- Function `getCached`: L1 lookup (with TTL and reinsertion); on L1
miss, L2 lookup with promotion of a hit into L1; `some (valid,
nullifier)` is the cached response. -/
def getCached (st : VerifierState) (proofHash : String) (now : Nat) :
    Option (Bool × String) × VerifierState :=
  match lruGet st.l1 now proofHash with
  | (some e, l1') => (some (e.valid, e.nullifier), { st with l1 := l1' })
  | (none, l1') =>
    match jsMapGet st.l2 proofHash with
    | some entry =>
      (some (entry.valid, entry.nullifier),
        { st with l1 := lruSet l1' now proofHash entry.valid entry.nullifier })
    | none => (none, { st with l1 := l1' })

/-- Function `setCached`: write the result into both cache layers. -/
def setCached (st : VerifierState) (proofHash : String) (valid : Bool)
    (nullifier : String) (now : Nat) : VerifierState :=
  { st with
    l1 := lruSet st.l1 now proofHash valid nullifier,
    l2 := kvPut st.l2 proofHash ⟨valid, now, nullifier⟩ }

/-- Function `isNullifierUsed` (`db/stores.ts`). -/
def isNullifierUsed (st : VerifierState) (nullifier : String) : Bool :=
  match jsMapGet st.nullifiers nullifier with
  | none => false
  | some e => e.used

/-- Function `registerNullifier` (`db/stores.ts`): write the entry and
append a `nullifier_register` audit entry. -/
def registerNullifier (st : VerifierState) (nullifier credentialId appId : String)
    (now : Nat) : VerifierState :=
  { st with
    nullifiers := kvPut st.nullifiers nullifier ⟨true, credentialId, appId, now⟩,
    auditLog := st.auditLog ++
      [⟨.nullifier_register, nullifier, "system", now, [("appId", appId)]⟩] }

/-- HTTP responses of `POST /proof/verify` (success paths). -/
inductive ProofVerifyResponse where
  /-- 200 with `cached : true`. -/
  | cachedHit (valid : Bool) (nullifier : String)
  /-- 200 with `cached : false`. -/
  | fresh (valid : Bool) (nullifier : String)
  /-- 409 with `valid : false` and the replay error message. -/
  | replayConflict (nullifier : String)
deriving DecidableEq, Repr

/-- HTTP status code of a response. -/
def ProofVerifyResponse.status : ProofVerifyResponse → Nat
  | .cachedHit _ _ => 200
  | .fresh _ _ => 200
  | .replayConflict _ => 409

/-- Value of the `valid` field in the response body. -/
def ProofVerifyResponse.validField : ProofVerifyResponse → Bool
  | .cachedHit v _ => v
  | .fresh v _ => v
  | .replayConflict _ => false

/-- Ordered effects of one route invocation. -/
inductive RouteEvent where
  | nullifierRegistered (nullifier appId : String)
  | cacheWritten (proofHash : String) (valid : Bool) (nullifier : String)
  | responded
deriving DecidableEq, Repr

/-- The `POST /proof/verify` handler: fingerprint, cache lookup, Groth16
verification (outcome `groth16Valid`), nullifier replay check (index 5,
appId from index 4), registration, cache write, response. -/
def proofVerifyRoute (groth16Valid : Bool) (proof : String)
    (signals : List String) (now : Nat) (st : VerifierState) :
    ProofVerifyResponse × VerifierState × List RouteEvent :=
  let proofHash := hashProof proof signals
  match getCached st proofHash now with
  | (some c, st1) => (.cachedHit c.1 c.2, st1, [.responded])
  | (none, st1) =>
    let valid := groth16Valid
    let nullifier := signals.getD 5 "0"
    if valid then
      if isNullifierUsed st1 nullifier then
        (.replayConflict nullifier, st1, [.responded])
      else
        let appId := signals.getD 4 "0"
        let st2 := registerNullifier st1 nullifier "unknown" appId now
        let st3 := setCached st2 proofHash valid nullifier now
        (.fresh valid nullifier, st3,
          [.nullifierRegistered nullifier appId,
            .cacheWritten proofHash valid nullifier, .responded])
    else
      let st2 := setCached st1 proofHash valid nullifier now
      (.fresh valid nullifier, st2,
        [.cacheWritten proofHash valid nullifier, .responded])

theorem getCached_nullifiers (st : VerifierState) (h : String) (now : Nat) :
    ((getCached st h now).2).nullifiers = st.nullifiers := by
  unfold getCached
  rcases hlg : lruGet st.l1 now h with ⟨o, l1'⟩
  rcases o with _ | e
  · rcases jsMapGet st.l2 h with _ | entry <;> rfl
  · rfl

/-- C3: for a submission that is not served from the cache and passes
Groth16 verification — if the nullifier (signals index 5) is already
registered, the route answers 409 with `valid : false`, leaves the
state exactly as the cache lookup left it (in particular the nullifier
store is untouched — no re-registration — and nothing is cached);
otherwise it registers the nullifier with the appId from signals index 4
and the trace shows the registration strictly before the cache write and
the response. -/
theorem C3_nullifier_replay_handling (groth16Valid : Bool) (proof : String)
    (signals : List String) (now : Nat) (st : VerifierState)
    (hmiss : (getCached st (hashProof proof signals) now).1 = none)
    (hvalid : groth16Valid = true) :
    (isNullifierUsed st (signals.getD 5 "0") = true →
      (proofVerifyRoute groth16Valid proof signals now st).1 =
        .replayConflict (signals.getD 5 "0") ∧
      (proofVerifyRoute groth16Valid proof signals now st).1.status = 409 ∧
      (proofVerifyRoute groth16Valid proof signals now st).1.validField = false ∧
      (proofVerifyRoute groth16Valid proof signals now st).2.1 =
        (getCached st (hashProof proof signals) now).2 ∧
      (proofVerifyRoute groth16Valid proof signals now st).2.1.nullifiers =
        st.nullifiers ∧
      (proofVerifyRoute groth16Valid proof signals now st).2.2 = [.responded]) ∧
    (isNullifierUsed st (signals.getD 5 "0") = false →
      jsMapGet (proofVerifyRoute groth16Valid proof signals now st).2.1.nullifiers
          (signals.getD 5 "0") =
        some ⟨true, "unknown", signals.getD 4 "0", now⟩ ∧
      (proofVerifyRoute groth16Valid proof signals now st).1 =
        .fresh true (signals.getD 5 "0") ∧
      (proofVerifyRoute groth16Valid proof signals now st).2.2 =
        [.nullifierRegistered (signals.getD 5 "0") (signals.getD 4 "0"),
          .cacheWritten (hashProof proof signals) true (signals.getD 5 "0"),
          .responded]) := by
  subst hvalid
  rcases hge : getCached st (hashProof proof signals) now with ⟨r, st1⟩
  rw [hge] at hmiss
  simp only at hmiss
  subst hmiss
  have hnl : st1.nullifiers = st.nullifiers := by
    have := getCached_nullifiers st (hashProof proof signals) now
    rw [hge] at this
    exact this
  have hused : ∀ n, isNullifierUsed st1 n = isNullifierUsed st n := by
    intro n
    unfold isNullifierUsed
    rw [hnl]
  unfold proofVerifyRoute
  simp only [hge]
  simp only [if_true]
  constructor
  · intro hu
    rw [if_pos (by rw [hused]; exact hu)]
    refine ⟨rfl, rfl, rfl, rfl, hnl, rfl⟩
  · intro hu
    rw [if_neg (by rw [hused, hu]; simp)]
    refine ⟨?_, rfl, rfl⟩
    show jsMapGet (setCached (registerNullifier st1 _ _ _ _) _ _ _ _).nullifiers _ = _
    unfold setCached registerNullifier
    simp only
    exact jsMapGet_kvPut_self _ _ _

/-- C3 witness state: empty caches and an empty nullifier store. -/
def c3State : VerifierState := ⟨⟨[], 10000, 3600000⟩, [], [], []⟩

/-- C3 witness public signals (appId at index 4, nullifier at
index 5). -/
def c3Signals : List String := ["ax", "ay", "18", "840", "app1", "null1", "ch1"]

/-- C3 (witness): on the concrete fresh state, a valid uncached proof
registers its nullifier with the appId from index 4, before caching and
responding. -/
theorem C3_nullifier_replay_handling_witness :
    ((getCached c3State (hashProof "p1" c3Signals) 50).1 = none ∧
      isNullifierUsed c3State (c3Signals.getD 5 "0") = false) ∧
    jsMapGet (proofVerifyRoute true "p1" c3Signals 50 c3State).2.1.nullifiers
        (c3Signals.getD 5 "0") =
      some ⟨true, "unknown", c3Signals.getD 4 "0", 50⟩ :=
  ⟨⟨rfl, rfl⟩,
    ((C3_nullifier_replay_handling true "p1" c3Signals 50 c3State rfl rfl).2
      rfl).1⟩

end ZeroID
